import Mathlib

/-!
Verification of the live DASH MSE player core (manifest model, segment
window and presentation controller) against its specification.

The JavaScript sources are shallowly embedded: times are rationals
(seconds for segment and playback times, milliseconds for manifest
durations, exactly as the source stores them), mutable object state is
passed explicitly, attributes that may be absent are `Option`, and a
computation that would dereference `undefined` in JavaScript is an
`Option`-valued function returning `none`.
-/

namespace DashPlayer

/-- Times are rationals. Segment and playback times are in seconds;
manifest durations (`timeShiftBufferDepth`, `minBufferTime`,
`suggestedPresentationDelay`, `minimumUpdatePeriod`) are stored in
milliseconds, as parsed by the manifest model. -/
abbrev Time := ℚ

/-- Derived segment descriptor: `start`, `duration` and `endTime`
(`end` in the source) in seconds. -/
structure Segment where
  start : Time
  duration : Time
  deriving DecidableEq, Repr

/-- The `end` field of a segment in the source: `start + duration`. -/
def Segment.endTime (s : Segment) : Time := s.start + s.duration

/-- Value equality of segments: start and duration match
(`Segment.equal` used by the window merge). -/
def Segment.equal (a b : Segment) : Bool :=
  decide (a.start = b.start ∧ a.duration = b.duration)

/-- Mutable state of a `SegmentWindow`: the rolling segment list, the
play and load cursors, and the exclusive end of the last queued range. -/
structure SegmentWindow where
  segments : List Segment
  playIndex : Option ℕ
  loadIndex : Option ℕ
  nextRangeStart : Option Time
  deriving DecidableEq, Repr

/-- First-update range start in `SegmentWindow.updateDynamic`
(lines computing `rangeStart` when `nextRangeStart` is undefined).
`anchorStart` is the start of the edge segment (or of its fallback),
`timeshift` is `manifest.timeShiftBufferDepth` and `spd` is
`manifest.suggestedPresentationDelay` (defaulted to `0` by
`Manifest.setup` when the attribute is absent, hence falsy).
The floor `minStart` is computed from the anchor start, before the
backward move, and the backward move subtracts the raw manifest
duration values. -/
def firstRangeStart (anchorStart timeshift spd : Time) : Time :=
  let rangeStart := anchorStart
  let minStart := rangeStart - timeshift
  let rangeStart := if spd ≠ 0 then rangeStart - spd else rangeStart - timeshift / 2
  let rangeStart := max rangeStart minStart
  max rangeStart 0

/-- Range start chosen by `updateDynamic`: `nextRangeStart` when set
(every update after the first), else the first-update anchor rule. -/
def chosenRangeStart (w : SegmentWindow) (anchorStart timeshift spd : Time) : Time :=
  match w.nextRangeStart with
  | some r => r
  | none => firstRangeStart anchorStart timeshift spd

/-- Embedding of `SegmentWindow.updateDynamic`. `segsIn` abstracts
`source.segmentsInRange`; `anchorStart` abstracts the start of the edge
segment found by `source.segmentAt(liveEdge)` or its fallback.
Returns `none` when the JavaScript would dereference `undefined`
(reading `newSegments[0].start` after the boundary splice emptied the
new-segment list). -/
def updateDynamic (segsIn : Time → Time → List Segment)
    (anchorStart liveEdge timeshift spd : Time)
    (w : SegmentWindow) : Option SegmentWindow :=
  let rangeStart := chosenRangeStart w anchorStart timeshift spd
  match segsIn rangeStart liveEdge with
  | [] => some w
  | first :: rest =>
    match w.segments.getLast? with
    | some lastSegment =>
      let newSegments := if lastSegment.equal first then rest else first :: rest
      match newSegments.head? with
      | none => none
      | some _ =>
        some { segments := w.segments ++ newSegments
               playIndex := w.playIndex
               loadIndex := some (w.loadIndex.getD 0)
               nextRangeStart := newSegments.getLast?.map Segment.endTime }
    | none =>
      some { segments := first :: rest
             playIndex := w.playIndex
             loadIndex := some (w.loadIndex.getD 0)
             nextRangeStart := ((first :: rest).getLast?).map Segment.endTime }

/-- The eight addressing attributes of a `SegmentTemplate`, each
possibly absent, as declared in `SegmentTemplate.setup` via `attrs`. -/
structure TemplateAttrs where
  bitstreamSwitching : Option String
  initialization : Option String
  index : Option String
  media : Option String
  startNumber : Option ℤ
  timescale : Option ℤ
  duration : Option ℤ
  presentationTimeOffset : Option ℤ
  deriving DecidableEq, Repr

/-- First non-absent of two optional values. -/
def pickAttr {α : Type} (own anc : Option α) : Option α :=
  match own with
  | some v => some v
  | none => anc

/-- Modelled from the spec: the `Model.inheritFrom` helper of the
model base class (its code is not among the sources, only this call
site) fills each listed attribute from the ancestor template only when
the own value is absent — first non-absent wins, never overwritten. -/
def fillAttrs (own anc : TemplateAttrs) : TemplateAttrs where
  bitstreamSwitching := pickAttr own.bitstreamSwitching anc.bitstreamSwitching
  initialization := pickAttr own.initialization anc.initialization
  index := pickAttr own.index anc.index
  media := pickAttr own.media anc.media
  startNumber := pickAttr own.startNumber anc.startNumber
  timescale := pickAttr own.timescale anc.timescale
  duration := pickAttr own.duration anc.duration
  presentationTimeOffset := pickAttr own.presentationTimeOffset anc.presentationTimeOffset

/-- Built-in defaults applied at the top of `SegmentTemplate.setup`,
before any inheritance runs: `timescale` 1, `startNumber` 1,
`presentationTimeOffset` 0. -/
def applyTemplateDefaults (t : TemplateAttrs) : TemplateAttrs :=
  { t with timescale := some (t.timescale.getD 1)
           startNumber := some (t.startNumber.getD 1)
           presentationTimeOffset := some (t.presentationTimeOffset.getD 0) }

/-- Embedding of `SegmentTemplate.setup` attribute resolution: parse
the own attributes, apply the built-in defaults, then inherit every
declared attribute from the AdaptationSet-level template and then from
the Period-level template (in that order, fill-if-absent). -/
def SegmentTemplate.setupAttrs (own : TemplateAttrs)
    (asT perT : Option TemplateAttrs) : TemplateAttrs :=
  let t := applyTemplateDefaults own
  let t := match asT with
    | some a => fillAttrs t a
    | none => t
  match perT with
  | some p => fillAttrs t p
  | none => t

/-- Embedding of the template-resolution step of `Representation.setup`:
keep the locally declared template when present, else clone the
AdaptationSet template, else clone the Period template, else raise.
`ancestor` lookups and the cloning constructor are in the model base
class (not among the sources); per the spec the clone copies the
addressing attributes of the ancestor template unchanged. -/
def Representation.resolveTemplate (ownT asT perT : Option TemplateAttrs) :
    Except String TemplateAttrs :=
  match ownT with
  | some t => Except.ok t
  | none =>
    match asT with
    | some t => Except.ok t
    | none =>
      match perT with
      | some t => Except.ok t
      | none => Except.error
          "Representation must currently have a SegmentTemplate or one must appear in ancestry"

/-- Embedding of the `mimeType` fallback at the end of
`AdaptationSet.setup`: when the attribute is absent from the document,
it is unconditionally copied from the first child Representation.
The outer `Option` is `none` when the JavaScript would dereference
`undefined` (`representations[0]` with zero Representations); the inner
`Option String` is the resolved, possibly absent, attribute value. -/
def AdaptationSet.resolveMimeType (own : Option String)
    (repMimeTypes : List (Option String)) : Option (Option String) :=
  match own with
  | some m => some (some m)
  | none =>
    match repMimeTypes.head? with
    | none => none
    | some m0 => some m0

/-- Embedding of `AdaptationSet.nextIndex`: the process-wide counter
starts undefined (treated as 0), is incremented and returned. -/
def AdaptationSet.nextIndex : Option ℕ → ℕ × Option ℕ
  | none => (1, some 1)
  | some n => (n + 1, some (n + 1))

/-- Run `n` successive AdaptationSet constructions from counter state
`st`, collecting the assigned indices in construction order. -/
def runNextIndex : ℕ → Option ℕ → List ℕ × Option ℕ
  | 0, st => ([], st)
  | n + 1, st =>
    let p := AdaptationSet.nextIndex st
    let q := runNextIndex n p.2
    (p.1 :: q.1, q.2)

/-- Segment download state. Modelled from the spec: the `Segment`
class constants (not among the sources) order the states
`pending → downloading → {downloaded, errored}`; the numeric codes
make the finished states the ones `≥ downloaded`, as tested by
`segment.state >= Segment.downloaded`. -/
inductive SegState
  | pending
  | downloading
  | downloaded
  | errored
  deriving DecidableEq, Repr

/-- Numeric code of a download state, matching the constant ordering
used by the comparisons in `downloadNextSegment`. -/
def SegState.code : SegState → ℕ
  | .pending => 0
  | .downloading => 1
  | .downloaded => 2
  | .errored => 3

/-- A segment as seen by download progression: timing, the resolved
URL (cached by `segment.url(true)` on first resolution) and the
download state. -/
structure DSegment where
  start : Time
  stop : Time
  url : String
  state : SegState
  deriving DecidableEq, Repr

/-- Modelled from the spec: `Segment.available()` (not among the
sources) holds once the segment end time has passed the live edge. -/
def DSegment.available (s : DSegment) (liveEdge : Time) : Bool :=
  decide (s.stop ≤ liveEdge)

/-- Window state consulted by `downloadNextSegment`. -/
structure DWindow where
  segments : List DSegment
  loadIndex : Option ℕ
  deriving DecidableEq, Repr

/-- Environment read by `downloadNextSegment`: the declared timeline
duration (absent for open-ended presentations), the controller
`loadingManifest` flag and the current live edge. -/
structure DEnv where
  duration : Option Time
  loadingManifest : Bool
  liveEdge : Time
  deriving DecidableEq, Repr

/-- Externally visible effect of one `downloadNextSegment` call. -/
inductive DAction
  | idle
  | download (url : String) (i : ℕ)
  | reloadManifest
  deriving DecidableEq, Repr

/-- Tail of `downloadNextSegment` (availability check, then marking the
segment downloading and requesting its URL). `w` already carries the
possibly advanced `loadIndex`, mutated before this point in the source. -/
def downloadStep (liveEdge : Time) (w : DWindow) (li : ℕ) (seg : DSegment) :
    DWindow × DAction :=
  if seg.available liveEdge = false then (w, DAction.idle)
  else ({ w with segments := w.segments.set li { seg with state := SegState.downloading } },
        DAction.download seg.url li)

/-- Embedding of `SegmentWindow.downloadNextSegment`. Returns `none`
when the JavaScript would dereference `undefined`
(`segments[loadIndex]` out of range). -/
def downloadNextSegment (env : DEnv) (w : DWindow) : Option (DWindow × DAction) :=
  match w.loadIndex with
  | none => some (w, DAction.idle)
  | some li =>
    match w.segments[li]? with
    | none => none
    | some seg =>
      if seg.state = SegState.downloading then some (w, DAction.idle)
      else if 2 ≤ seg.state.code then
        if li + 1 = w.segments.length then
          if (match env.duration with
              | some d => decide (d ≠ 0) && decide (d ≤ seg.stop)
              | none => false) then some (w, DAction.idle)
          else if env.loadingManifest then some (w, DAction.idle)
          else some (w, DAction.reloadManifest)
        else
          match w.segments[li + 1]? with
          | none => none
          | some seg2 =>
            some (downloadStep env.liveEdge { w with loadIndex := some (li + 1) } (li + 1) seg2)
      else
        some (downloadStep env.liveEdge w li seg)

/-- Presentation controller state relevant to manifest loading: the
numeric lifecycle state (0 `uninitialised` … 4 `bufferAvailable`), the
`loadingManifest` re-entry guard and a ghost count of manifest
requests issued to the downloader and not yet delivered back. -/
structure Controller where
  state : ℕ
  loadingManifest : Bool
  inFlight : ℕ
  deriving DecidableEq, Repr

/-- Embedding of `PresentationController.loadManifest`: a call while a
load is outstanding returns without touching the downloader; otherwise
`downloader.getMPD` is invoked (one more request in flight) and the
guard is set. The boolean records whether a request was issued. -/
def loadManifest (c : Controller) : Controller × Bool :=
  if c.loadingManifest then (c, false)
  else ({ c with loadingManifest := true, inFlight := c.inFlight + 1 }, true)

/-- Embedding of `PresentationController.loadedManifest`: the delivery
of a loaded manifest moves `uninitialised` to `firstMPDLoaded`, clears
the guard and consumes the in-flight request. -/
def loadedManifest (c : Controller) : Controller :=
  let c1 := if c.state = 0 then { c with state := 1 } else c
  { c1 with loadingManifest := false, inFlight := c1.inFlight - 1 }

/-- One manifest-loading transition of the controller: either some code
path calls `loadManifest`, or the downloader delivers an outstanding
manifest back via `loadedManifest` (deliveries only happen for
requests actually in flight). -/
inductive CStep : Controller → Controller → Prop
  | load (c : Controller) : CStep c (loadManifest c).1
  | loaded (c : Controller) (h : 0 < c.inFlight) : CStep c (loadedManifest c)

/-- Controller states reachable from construction
(`state = uninitialised`, guard clear, nothing in flight). -/
inductive CReachable : Controller → Prop
  | init : CReachable ⟨0, false, 0⟩
  | step {c c' : Controller} : CReachable c → CStep c c' → CReachable c'

/-- Environment read by one `tick`: manifest dynamism and reload
period, time since the last manifest load (milliseconds), the buffered
time ranges and current playback time of the video element (seconds),
`manifest.minBufferTime` (milliseconds) and the number of active
sources. -/
structure TickEnv where
  dynamic : Bool
  minimumUpdatePeriod : Option Time
  sinceLoaded : Time
  buffered : List (Time × Time)
  currentTime : Time
  minBufferTime : Time
  numSources : ℕ
  deriving DecidableEq, Repr

/-- Externally visible outcome of one `tick`. -/
structure TickResult where
  ctrl : Controller
  mpdRequested : Bool
  downloadAdvances : ℕ
  seekTo : Option Time
  played : Bool
  deriving DecidableEq, Repr

/-- Manifest-reload check at the top of `PresentationController.tick`:
for a dynamic manifest with a non-zero `minimumUpdatePeriod` that has
elapsed since the last load, call `loadManifest`. -/
def tickReload (env : TickEnv) (c : Controller) : Controller × Bool :=
  if env.dynamic &&
      (match env.minimumUpdatePeriod with
       | some m => decide (m ≠ 0) && decide (m ≤ env.sinceLoaded)
       | none => false)
  then loadManifest c else (c, false)

/-- Embedding of `PresentationController.tick`: the reload check, then
the buffering decision. Returns `none` when the JavaScript would read
`video.buffered.start(0)` with no buffered range. Below the
`2 × minBufferTime` lookahead threshold the tick asks every active
source to advance downloads; at or above it, a controller in
`sourcesInitialised` (state 3) moves to `bufferAvailable` (state 4),
seeks to the start of the buffered range and starts playback. -/
def tick (env : TickEnv) (c : Controller) : Option TickResult :=
  let p := tickReload env c
  let remaining : Time :=
    match env.buffered.head? with
    | some r => r.2 - env.currentTime
    | none => 0
  let minBuffer := env.minBufferTime / 1000 * 2
  if remaining < minBuffer then
    some { ctrl := p.1, mpdRequested := p.2, downloadAdvances := env.numSources
           seekTo := none, played := false }
  else if p.1.state = 3 then
    match env.buffered.head? with
    | none => none
    | some r =>
      some { ctrl := { p.1 with state := 4 }, mpdRequested := p.2
             downloadAdvances := 0, seekTo := some r.1, played := true }
  else
    some { ctrl := p.1, mpdRequested := p.2, downloadAdvances := 0
           seekTo := none, played := false }

/-! Helper lemmas shared by the claim theorems. -/

theorem pickAttr_some {α : Type} (v : α) (b : Option α) : pickAttr (some v) b = some v := rfl

theorem pickAttr_none {α : Type} (b : Option α) : pickAttr none b = b := rfl

theorem pickAttr_none_right {α : Type} (a : Option α) : pickAttr a none = a := by
  cases a <;> rfl

theorem pickAttr_assoc {α : Type} (a b c : Option α) :
    pickAttr (pickAttr a b) c = pickAttr a (pickAttr b c) := by
  cases a <;> rfl

/-! Claim theorems. -/

/-- C1: the claim says the first dynamic-window `rangeStart` moves back
from the anchor by `suggestedPresentationDelay`, else by
`timeShiftBufferDepth / 2`, clamped at `liveEdge − timeShiftBufferDepth`
and at 0, giving 85 s for `timeShiftBufferDepth = 30000` ms, no
suggested delay and live edge 100 s. The code subtracts the raw
millisecond manifest values from second-based segment times (its own
comment says it moves back by that many seconds) and clamps against the
anchor start rather than the live edge, so at the specified input
(anchor on the live edge at 100 s) it yields 0, not 85; with the values
converted to seconds, as the specification intends, the same rule
yields 85. -/
theorem C1_rangeStart_units :
    firstRangeStart 100 30000 0 = 0 ∧
    firstRangeStart 100 30000 0 ≠ 85 ∧
    firstRangeStart 100 30 0 = 85 := by
  norm_num [firstRangeStart]

/-- C2 counterexample: a template with every own attribute absent whose
AdaptationSet-level default declares `timescale = 1000` resolves to
`timescale = 1`: the built-in default, applied before inheritance,
wins over the ancestor value, contradicting the claim that a value
declared on an ancestor template wins over the built-in defaults. -/
theorem C2_counterexample :
    (SegmentTemplate.setupAttrs
      ⟨none, none, none, none, none, none, none, none⟩
      (some ⟨none, none, none, none, none, some 1000, none, none⟩)
      none).timescale = some 1 ∧ ((1 : ℤ) ≠ 1000) := by
  constructor
  · rfl
  · decide

/-- C2 amended: attributes without a built-in default (`duration`,
`media`, `index`, `initialization`, `bitstreamSwitching`) are resolved
in strict precedence order own value, AdaptationSet-level default,
Period-level default, first non-absent wins; but `startNumber`,
`timescale` and `presentationTimeOffset` receive their built-in
defaults (1, 1, 0) before inheritance runs, so an ancestor value never
overrides the built-in default when the own value is absent. -/
theorem C2_amended_precedence (own : TemplateAttrs) (asT perT : Option TemplateAttrs) :
    (SegmentTemplate.setupAttrs own asT perT).startNumber = some (own.startNumber.getD 1) ∧
    (SegmentTemplate.setupAttrs own asT perT).timescale = some (own.timescale.getD 1) ∧
    (SegmentTemplate.setupAttrs own asT perT).presentationTimeOffset
      = some (own.presentationTimeOffset.getD 0) ∧
    (SegmentTemplate.setupAttrs own asT perT).duration
      = pickAttr own.duration
          (pickAttr (asT.bind TemplateAttrs.duration) (perT.bind TemplateAttrs.duration)) ∧
    (SegmentTemplate.setupAttrs own asT perT).media
      = pickAttr own.media
          (pickAttr (asT.bind TemplateAttrs.media) (perT.bind TemplateAttrs.media)) ∧
    (SegmentTemplate.setupAttrs own asT perT).index
      = pickAttr own.index
          (pickAttr (asT.bind TemplateAttrs.index) (perT.bind TemplateAttrs.index)) ∧
    (SegmentTemplate.setupAttrs own asT perT).initialization
      = pickAttr own.initialization
          (pickAttr (asT.bind TemplateAttrs.initialization)
            (perT.bind TemplateAttrs.initialization)) ∧
    (SegmentTemplate.setupAttrs own asT perT).bitstreamSwitching
      = pickAttr own.bitstreamSwitching
          (pickAttr (asT.bind TemplateAttrs.bitstreamSwitching)
            (perT.bind TemplateAttrs.bitstreamSwitching)) := by
  obtain ⟨bs, ini, idx, med, sn, ts, dur, pto⟩ := own
  cases asT <;> cases perT <;>
    simp [SegmentTemplate.setupAttrs, applyTemplateDefaults, fillAttrs,
      pickAttr_some, pickAttr_none, pickAttr_none_right, pickAttr_assoc]

/-- C3: a Representation constructed without a local SegmentTemplate
resolves its template to the nearest ancestor template, preferring the
AdaptationSet over the Period, and construction raises exactly when
neither the Representation, its AdaptationSet nor its Period declares
one. -/
theorem C3_resolveTemplate (ownT asT perT : Option TemplateAttrs) :
    ((∃ e, Representation.resolveTemplate ownT asT perT = Except.error e) ↔
      ownT = none ∧ asT = none ∧ perT = none) ∧
    (∀ t, ownT = none → asT = some t →
      Representation.resolveTemplate ownT asT perT = Except.ok t) ∧
    (∀ t, ownT = none → asT = none → perT = some t →
      Representation.resolveTemplate ownT asT perT = Except.ok t) := by
  cases ownT <;> cases asT <;> cases perT <;>
    simp [Representation.resolveTemplate]

/-- C3 witness: with no local and no AdaptationSet template, the
Period template is cloned. -/
theorem C3_resolveTemplate_witness :
    Representation.resolveTemplate none none
      (some ⟨none, none, none, none, some 1, some 1, some 2000, some 0⟩)
      = Except.ok ⟨none, none, none, none, some 1, some 1, some 2000, some 0⟩ :=
  (C3_resolveTemplate none none _).2.2 _ rfl rfl rfl

/-- C8: the AdaptationSet indices assigned by any number of successive
constructions from the initial (undefined) counter are exactly
1, 2, …, n — strictly increasing in construction order and therefore
globally unique; the counter is never reset. -/
theorem C8_nextIndex_strictMono (n : ℕ) :
    (runNextIndex n none).1 = List.range' 1 n ∧
    List.Pairwise (· < ·) (runNextIndex n none).1 ∧
    (runNextIndex n none).1.Nodup := by
  have key : ∀ k m, (runNextIndex k (some m)).1 = List.range' (m + 1) k := by
    intro k
    induction k with
    | zero => intro m; rfl
    | succ k ih =>
      intro m
      simp [runNextIndex, AdaptationSet.nextIndex, ih, List.range'_succ]
  have base : (runNextIndex n none).1 = List.range' 1 n := by
    cases n with
    | zero => rfl
    | succ k =>
      simp [runNextIndex, AdaptationSet.nextIndex, key, List.range'_succ]
  refine ⟨base, ?_, ?_⟩
  · rw [base]; exact List.pairwise_lt_range' 1 n
  · rw [base]; exact List.nodup_range' 1 n

/-- C10: with `mimeType` absent from the document, `AdaptationSet.setup`
unconditionally reads the first Representation: the fallback fails
(dereferences `undefined`) exactly when there are zero Representations,
and otherwise copies the first Representation value — it never leaves
`mimeType` absent-by-skipping. -/
theorem C10_resolveMimeType (reps : List (Option String)) (own : Option String)
    (habsent : own = none) :
    (AdaptationSet.resolveMimeType own reps = none ↔ reps = []) ∧
    (∀ m0 rest, reps = m0 :: rest → AdaptationSet.resolveMimeType own reps = some m0) := by
  subst habsent
  cases reps <;> simp [AdaptationSet.resolveMimeType]

/-- C10 witness: zero Representations make the fallback fail, and a
single Representation supplies its value. -/
theorem C10_resolveMimeType_witness :
    AdaptationSet.resolveMimeType none [] = none ∧
    AdaptationSet.resolveMimeType none [some "video/mp4"] = some (some "video/mp4") :=
  ⟨(C10_resolveMimeType [] none rfl).1.mpr rfl,
   (C10_resolveMimeType [some "video/mp4"] none rfl).2 _ _ rfl⟩

theorem loadManifest_fst_state (c : Controller) : (loadManifest c).1.state = c.state := by
  unfold loadManifest
  split <;> rfl

theorem tickReload_fst_state (env : TickEnv) (c : Controller) :
    (tickReload env c).1.state = c.state := by
  unfold tickReload
  split
  · exact loadManifest_fst_state c
  · rfl

/-- C5: in every reachable controller state at most one manifest load
is in flight (the in-flight count is 1 exactly when `loadingManifest`
is set); a `loadManifest` call while the flag is set returns without
issuing a request; and the only manifest-loading transition that clears
the flag is the delivery of a loaded manifest. -/
theorem C5_single_manifest_load :
    (∀ c, CReachable c →
      c.inFlight ≤ 1 ∧ c.inFlight = (if c.loadingManifest then 1 else 0)) ∧
    (∀ c, c.loadingManifest = true → loadManifest c = (c, false)) ∧
    (∀ c c', CStep c c' → c.loadingManifest = true → c'.loadingManifest = false →
      c' = loadedManifest c) := by
  refine ⟨?_, ?_, ?_⟩
  · intro c hc
    have main : c.inFlight = (if c.loadingManifest then 1 else 0) := by
      induction hc with
      | init => rfl
      | step hr hs ih =>
        rename_i c0 c1
        cases hs with
        | load =>
          by_cases h : c0.loadingManifest
          · simpa [loadManifest, h] using ih
          · simp only [Bool.not_eq_true] at h
            simp [loadManifest, h] at ih ⊢
            omega
        | loaded h =>
          have hflag : c0.loadingManifest = true := by
            by_contra hfl
            simp only [Bool.not_eq_true] at hfl
            rw [hfl] at ih
            simp at ih
            omega
          rw [hflag] at ih
          simp at ih
          unfold loadedManifest
          split <;> simp [ih]
    exact ⟨by rw [main]; split <;> omega, main⟩
  · intro c h
    simp [loadManifest, h]
  · intro c c' hs h1 h2
    cases hs with
    | load =>
      simp [loadManifest, h1] at h2
    | loaded h => rfl

/-- C5 witness: from the initial state one `loadManifest` call leaves a
reachable state with exactly one load in flight, and a further call
while the flag is set is dropped without a request. -/
theorem C5_single_manifest_load_witness :
    (⟨0, true, 1⟩ : Controller).inFlight ≤ 1 ∧
    loadManifest ⟨0, true, 1⟩ = (⟨0, true, 1⟩, false) := by
  constructor
  · have hr : CReachable (⟨0, true, 1⟩ : Controller) := by
      have h0 := CReachable.step CReachable.init (CStep.load ⟨0, false, 0⟩)
      simpa [loadManifest] using h0
    exact (C5_single_manifest_load.1 ⟨0, true, 1⟩ hr).1
  · exact C5_single_manifest_load.2.1 ⟨0, true, 1⟩ rfl

/-- C6: a dynamic window update over a range that yields zero segments
is a no-op: the whole window state (segment list, play and load
cursors, `nextRangeStart`) is returned unchanged. -/
theorem C6_updateDynamic_noop (segsIn : Time → Time → List Segment)
    (anchorStart liveEdge timeshift spd : Time) (w : SegmentWindow)
    (h : segsIn (chosenRangeStart w anchorStart timeshift spd) liveEdge = []) :
    updateDynamic segsIn anchorStart liveEdge timeshift spd w = some w := by
  simp [updateDynamic, h]

/-- C6 witness: an update producing no segments leaves a concrete
window untouched. -/
theorem C6_updateDynamic_noop_witness :
    updateDynamic (fun _ _ => []) 0 0 0 0 ⟨[⟨0, 4⟩], some 0, some 0, some 4⟩
      = some ⟨[⟨0, 4⟩], some 0, some 0, some 4⟩ :=
  C6_updateDynamic_noop _ 0 0 0 0 _ rfl

/-- C9: with a non-empty existing segment list, `updateDynamic`
dereferences `undefined` (and so is not total) exactly when the range
yields a single segment that value-equals the last queued segment: the
boundary splice then empties the new-segment list, and the boundary
check and the `nextRangeStart` assignment read its first and last
element. -/
theorem C9_updateDynamic_crash (segsIn : Time → Time → List Segment)
    (anchorStart liveEdge timeshift spd : Time) (w : SegmentWindow) (lastSeg : Segment)
    (hlast : w.segments.getLast? = some lastSeg) :
    updateDynamic segsIn anchorStart liveEdge timeshift spd w = none ↔
      ∃ s, segsIn (chosenRangeStart w anchorStart timeshift spd) liveEdge = [s] ∧
        lastSeg.equal s = true := by
  unfold updateDynamic
  cases hseg : segsIn (chosenRangeStart w anchorStart timeshift spd) liveEdge with
  | nil => simp [hseg]
  | cons first rest =>
    by_cases he : lastSeg.equal first = true
    · cases rest with
      | nil =>
        simp only [hseg, hlast, he, if_true, List.head?_nil]
        constructor
        · intro _; exact ⟨first, rfl, he⟩
        · intro _; trivial
      | cons b bs =>
        simp [hseg, hlast, he]
    · simp only [hseg, hlast]
      rw [if_neg he]
      simp only [List.head?_cons]
      constructor
      · intro h; exact absurd h (by simp)
      · rintro ⟨s, hs1, hs2⟩
        injection hs1 with h1 h2
        rw [← h1] at hs2
        exact absurd hs2 he

/-- C9 witness: one new segment equal to the single queued segment
makes the update crash. -/
theorem C9_updateDynamic_crash_witness :
    updateDynamic (fun _ _ => [⟨0, 10⟩]) 0 0 0 0 ⟨[⟨0, 10⟩], none, some 0, some 10⟩ = none := by
  refine (C9_updateDynamic_crash (fun _ _ => [⟨0, 10⟩]) 0 0 0 0
      ⟨[⟨0, 10⟩], none, some 0, some 10⟩ ⟨0, 10⟩ rfl).mpr ⟨⟨0, 10⟩, rfl, ?_⟩
  simp [Segment.equal]

/-- C7: for a controller in `sourcesInitialised` with a buffered range,
a tick moves to `bufferAvailable` exactly when the buffered lookahead
(end of the first buffered range minus current time) reaches
`2 × minBufferTime`; on that transition it seeks to the start of the
buffered range and starts playback, and below the threshold it instead
requests a download advance for every active source and stays in
`sourcesInitialised`. -/
theorem C7_tick_buffer_transition (env : TickEnv) (c : Controller)
    (s e : Time) (rest : List (Time × Time))
    (hstate : c.state = 3)
    (hbuf : env.buffered = (s, e) :: rest) :
    ∃ r, tick env c = some r ∧
      (r.ctrl.state = 4 ↔ env.minBufferTime / 1000 * 2 ≤ e - env.currentTime) ∧
      (env.minBufferTime / 1000 * 2 ≤ e - env.currentTime →
        r.seekTo = some s ∧ r.played = true ∧ r.downloadAdvances = 0) ∧
      (e - env.currentTime < env.minBufferTime / 1000 * 2 →
        r.ctrl.state = 3 ∧ r.downloadAdvances = env.numSources ∧ r.played = false) := by
  have h1 : (tickReload env c).1.state = 3 := by rw [tickReload_fst_state, hstate]
  unfold tick
  rw [hbuf]
  simp only [List.head?]
  by_cases hlt : e - env.currentTime < env.minBufferTime / 1000 * 2
  · rw [if_pos hlt]
    refine ⟨_, rfl, ?_, ?_, ?_⟩
    · simp only [h1]
      constructor
      · intro h; omega
      · intro h; exact absurd h (not_le.mpr hlt)
    · intro h; exact absurd h (not_le.mpr hlt)
    · intro _; exact ⟨h1, rfl, rfl⟩
  · rw [if_neg hlt, if_pos h1]
    refine ⟨_, rfl, ?_, ?_, ?_⟩
    · simpa using not_lt.mp hlt
    · intro _; exact ⟨rfl, rfl, rfl⟩
    · intro h; exact absurd h hlt

/-- C7 witness: with 100 s buffered ahead and `minBufferTime` 1000 ms,
a tick from `sourcesInitialised` transitions, seeks and plays. -/
theorem C7_tick_buffer_transition_witness :
    ∃ r, tick ⟨false, none, 0, [(0, 100)], 0, 1000, 2⟩ ⟨3, false, 0⟩ = some r ∧
      r.ctrl.state = 4 ∧ r.seekTo = some 0 ∧ r.played = true := by
  obtain ⟨r, hr, hiff, hge, _⟩ :=
    C7_tick_buffer_transition ⟨false, none, 0, [(0, 100)], 0, 1000, 2⟩ ⟨3, false, 0⟩
      0 100 [] rfl rfl
  have hb : (1000 : Time) / 1000 * 2 ≤ 100 - 0 := by norm_num
  obtain ⟨h2, h3, _⟩ := hge hb
  exact ⟨r, hr, hiff.mpr hb, h2, h3⟩

theorem C4aux_unchanged (w w' : DWindow) (act : DAction)
    (hw : w'.segments = w.segments) (hact : ∀ u i, act ≠ DAction.download u i) :
    (∀ u i, act = DAction.download u i →
      ∃ s, w.segments[i]? = some s ∧ s.state = SegState.pending ∧ u = s.url ∧
        w'.segments = w.segments.set i { s with state := SegState.downloading }) ∧
    (∀ (j : ℕ) (s s' : DSegment), w.segments[j]? = some s → w'.segments[j]? = some s' →
      s' = s ∨ (s.state = SegState.pending ∧ s' = { s with state := SegState.downloading })) := by
  constructor
  · intro u i h
    exact absurd h (hact u i)
  · intro j s s' hs hs'
    left
    rw [hw, hs] at hs'
    exact (Option.some.inj hs').symm

theorem downloadStep_spec (liveEdge : Time) (w w' : DWindow) (li : ℕ) (seg : DSegment)
    (act : DAction)
    (hseg : w.segments[li]? = some seg) (hpend : seg.state = SegState.pending)
    (hres : downloadStep liveEdge w li seg = (w', act)) :
    (∀ u i, act = DAction.download u i →
      ∃ s, w.segments[i]? = some s ∧ s.state = SegState.pending ∧ u = s.url ∧
        w'.segments = w.segments.set i { s with state := SegState.downloading }) ∧
    (∀ (j : ℕ) (s s' : DSegment), w.segments[j]? = some s → w'.segments[j]? = some s' →
      s' = s ∨ (s.state = SegState.pending ∧ s' = { s with state := SegState.downloading })) := by
  have hlt : li < w.segments.length := by
    by_contra hc
    rw [List.getElem?_eq_none (Nat.le_of_not_lt hc)] at hseg
    cases hseg
  unfold downloadStep at hres
  by_cases hav : seg.available liveEdge = false
  · rw [if_pos hav] at hres
    injection hres with hw hact
    exact C4aux_unchanged w w' act (by rw [← hw]) (by intro u i h; rw [← hact] at h; cases h)
  · rw [if_neg hav] at hres
    injection hres with hw hact
    constructor
    · intro u i h
      rw [← hact] at h
      injection h with hu hi
      subst hu
      subst hi
      exact ⟨seg, hseg, hpend, rfl, by rw [← hw]⟩
    · intro j s s' hs hs'
      rw [← hw] at hs'
      by_cases hj : li = j
      · subst hj
        rw [hseg] at hs
        have hs2 : s = seg := (Option.some.inj hs).symm
        rw [List.getElem?_set_eq_of_lt _ hlt] at hs'
        right
        refine ⟨by rw [hs2, hpend], ?_⟩
        rw [← Option.some.inj hs', hs2]
      · left
        rw [List.getElem?_set_ne hj, hs] at hs'
        exact (Option.some.inj hs').symm

/-- C4: download progression with a valid `loadIndex` and every segment
beyond it still pending (the reachable-window invariant): a segment
already downloading at `loadIndex` causes no second request and no
change; any download request issued targets a segment that was pending,
requests exactly its cached URL, and marks it downloading; the only
state change the call ever makes to any segment is
pending → downloading; and eligible segments are actually requested: a
pending available segment at the cursor, or the available successor of
a finished non-final segment, transitions to downloading with its URL
requested from the downloader. -/
theorem C4_downloadNextSegment (env : DEnv) (w : DWindow) (li : ℕ) (seg : DSegment)
    (hli : w.loadIndex = some li)
    (hseg : w.segments[li]? = some seg)
    (hinv : ∀ j (hj : j < w.segments.length), li < j →
      (w.segments.get ⟨j, hj⟩).state = SegState.pending) :
    (seg.state = SegState.downloading →
      downloadNextSegment env w = some (w, DAction.idle)) ∧
    (∀ w' act, downloadNextSegment env w = some (w', act) →
      (∀ u i, act = DAction.download u i →
        ∃ s, w.segments[i]? = some s ∧ s.state = SegState.pending ∧ u = s.url ∧
          w'.segments = w.segments.set i { s with state := SegState.downloading }) ∧
      (∀ (j : ℕ) (s s' : DSegment), w.segments[j]? = some s → w'.segments[j]? = some s' →
        s' = s ∨ (s.state = SegState.pending ∧ s' = { s with state := SegState.downloading }))) ∧
    (seg.state = SegState.pending → seg.available env.liveEdge = true →
      downloadNextSegment env w =
        some ({ w with segments := w.segments.set li { seg with state := SegState.downloading } },
          DAction.download seg.url li)) ∧
    (2 ≤ seg.state.code → li + 1 ≠ w.segments.length →
      ∀ seg2 : DSegment, w.segments[li + 1]? = some seg2 →
        seg2.available env.liveEdge = true →
        downloadNextSegment env w =
          some (⟨w.segments.set (li + 1) { seg2 with state := SegState.downloading },
              some (li + 1)⟩,
            DAction.download seg2.url (li + 1))) := by
  have hlt : li < w.segments.length := by
    by_contra hc
    rw [List.getElem?_eq_none (Nat.le_of_not_lt hc)] at hseg
    cases hseg
  refine ⟨?_, ?_, ?_, ?_⟩
  · intro hdl
    unfold downloadNextSegment
    simp only [hli, hseg]
    rw [if_pos hdl]
  · intro w' act hres
    unfold downloadNextSegment at hres
    simp only [hli, hseg] at hres
    by_cases hdl : seg.state = SegState.downloading
    · rw [if_pos hdl] at hres
      have hpair : (w, DAction.idle) = (w', act) := Option.some.inj hres
      injection hpair with hw hact
      exact C4aux_unchanged w w' act (by rw [← hw]) (by intro u i h; rw [← hact] at h; cases h)
    · rw [if_neg hdl] at hres
      by_cases hfin : 2 ≤ seg.state.code
      · rw [if_pos hfin] at hres
        by_cases hlastq : li + 1 = w.segments.length
        · rw [if_pos hlastq] at hres
          have hcase : (w, DAction.idle) = (w', act) ∨ (w, DAction.reloadManifest) = (w', act) := by
            split at hres
            · exact Or.inl (Option.some.inj hres)
            · split at hres
              · exact Or.inl (Option.some.inj hres)
              · exact Or.inr (Option.some.inj hres)
          obtain hpair | hpair := hcase <;>
          · injection hpair with hw hact
            exact C4aux_unchanged w w' act (by rw [← hw])
              (by intro u i h; rw [← hact] at h; cases h)
        · rw [if_neg hlastq] at hres
          have hlt2 : li + 1 < w.segments.length :=
            Nat.lt_of_le_of_ne (Nat.succ_le_of_lt hlt) hlastq
          have hseg2 : w.segments[li + 1]? = some (w.segments.get ⟨li + 1, hlt2⟩) := by
            rw [List.getElem?_eq_getElem hlt2]
            rfl
          simp only [hseg2] at hres
          have hpend2 : (w.segments.get ⟨li + 1, hlt2⟩).state = SegState.pending :=
            hinv (li + 1) hlt2 (Nat.lt_succ_self li)
          exact downloadStep_spec env.liveEdge { w with loadIndex := some (li + 1) } w'
            (li + 1) _ act hseg2 hpend2 (Option.some.inj hres)
      · rw [if_neg hfin] at hres
        have hpend : seg.state = SegState.pending := by
          cases hst : seg.state with
          | pending => rfl
          | downloading => exact absurd hst hdl
          | downloaded => exact absurd (by rw [hst]; decide : 2 ≤ seg.state.code) hfin
          | errored => exact absurd (by rw [hst]; decide : 2 ≤ seg.state.code) hfin
        exact downloadStep_spec env.liveEdge w w' li seg act hseg hpend (Option.some.inj hres)
  · intro hpend hav
    unfold downloadNextSegment
    simp only [hli, hseg]
    rw [if_neg (by rw [hpend]; decide : ¬(seg.state = SegState.downloading))]
    rw [if_neg (by rw [hpend]; decide : ¬(2 ≤ seg.state.code))]
    unfold downloadStep
    rw [if_neg (by rw [hav]; decide : ¬(seg.available env.liveEdge = false)), hli]
  · intro hfin hne seg2 hseg2 hav2
    have hdl : ¬(seg.state = SegState.downloading) := by
      intro h
      rw [h] at hfin
      exact absurd hfin (by decide)
    unfold downloadNextSegment
    simp only [hli, hseg]
    rw [if_neg hdl, if_pos hfin, if_neg hne]
    simp only [hseg2]
    unfold downloadStep
    rw [if_neg (by rw [hav2]; decide : ¬(seg2.available env.liveEdge = false))]

/-- C4 witness: a call with the segment at `loadIndex` already
downloading does nothing and requests nothing, while a pending segment
whose end has passed the live edge is marked downloading and its URL is
requested. -/
theorem C4_downloadNextSegment_witness :
    downloadNextSegment ⟨none, false, 100⟩
      ⟨[⟨0, 4, "seg1.m4s", SegState.downloading⟩], some 0⟩
      = some (⟨[⟨0, 4, "seg1.m4s", SegState.downloading⟩], some 0⟩, DAction.idle) ∧
    downloadNextSegment ⟨none, false, 100⟩
      ⟨[⟨0, 4, "seg1.m4s", SegState.pending⟩], some 0⟩
      = some (⟨[⟨0, 4, "seg1.m4s", SegState.downloading⟩], some 0⟩,
          DAction.download "seg1.m4s" 0) := by
  constructor
  · exact (C4_downloadNextSegment ⟨none, false, 100⟩
      ⟨[⟨0, 4, "seg1.m4s", SegState.downloading⟩], some 0⟩ 0
      ⟨0, 4, "seg1.m4s", SegState.downloading⟩ rfl rfl
      (by intro j hj hlt; simp only [List.length_cons, List.length_nil] at hj
          exact absurd hlt (by omega))).1 rfl
  · have h := (C4_downloadNextSegment ⟨none, false, 100⟩
      ⟨[⟨0, 4, "seg1.m4s", SegState.pending⟩], some 0⟩ 0
      ⟨0, 4, "seg1.m4s", SegState.pending⟩ rfl rfl
      (by intro j hj hlt; simp only [List.length_cons, List.length_nil] at hj
          exact absurd hlt (by omega))).2.2.1 rfl
      (by norm_num [DSegment.available])
    simpa using h

end DashPlayer
